import Mathlib

/-!
Verification of the inventory-reservation and payment-settlement core of the
order-processing repository.

The definitions below are a shallow embedding of the data-access modules
`services/inventory/src/db.ts` and `services/payment/src/db.ts`, together
with the relevant parts of the SQL schema in `db/init` (the `inventory`,
`inventory_reservations` and `payments` tables).  Tables are embedded as
lists of rows; a SQL `SELECT ... WHERE sku = $1` on a UNIQUE-keyed column
becomes `List.find?`, and a SQL `UPDATE ... WHERE sku = $2` becomes a
`List.map` that rewrites every matching row.  Timestamps are abstract
integers.  Quantities and money amounts are embedded as `Int`, matching the
INTEGER columns of the schema.
-/

set_option maxRecDepth 8000

namespace OrderProc

/-- Status column of an `inventory_reservations` row
(schema default is RESERVED). -/
inductive ResStatus
  | reserved
  | confirmed
  | released
  | expired
deriving DecidableEq, Repr

/-- A row of the `inventory` table (columns used by the data-access code:
`sku` is UNIQUE, quantities and price are INTEGER). -/
structure InvItem where
  sku : String
  available_quantity : Int
  reserved_quantity : Int
  price_cents : Int
deriving DecidableEq, Repr

/-- A row of the `inventory_reservations` table. -/
structure Reservation where
  order_id : String
  sku : String
  quantity : Int
  status : ResStatus
  expires_at : Int
deriving DecidableEq, Repr

/-- The durable state touched by the inventory service: the `inventory`
table and the `inventory_reservations` table. -/
structure InvState where
  inventory : List InvItem
  reservations : List Reservation
deriving DecidableEq, Repr

/-- `SELECT ... FROM inventory WHERE sku = $1` : the first row whose sku
matches (the sku column is UNIQUE in the schema). -/
def findItem (inv : List InvItem) (sku : String) : Option InvItem :=
  inv.find? (fun r => r.sku == sku)

/-- The available quantity the reserve loop reads for a sku, if the sku
exists. -/
def availOf (inv : List InvItem) (sku : String) : Option Int :=
  (findItem inv sku).map (fun r => r.available_quantity)

/-- `UPDATE inventory SET available_quantity = available_quantity - $1,
reserved_quantity = reserved_quantity + $1 WHERE sku = $2`
(`reserveInventory`, db.ts lines 103-106). -/
def debitItem (inv : List InvItem) (sku : String) (q : Int) : List InvItem :=
  inv.map (fun r =>
    if r.sku == sku then
      { r with
        available_quantity := r.available_quantity - q
        reserved_quantity := r.reserved_quantity + q }
    else r)

/-- `UPDATE inventory SET available_quantity = available_quantity + $1,
reserved_quantity = reserved_quantity - $1 WHERE sku = $2`
(`releaseReservation`, db.ts lines 162-165). -/
def creditItem (inv : List InvItem) (sku : String) (q : Int) : List InvItem :=
  inv.map (fun r =>
    if r.sku == sku then
      { r with
        available_quantity := r.available_quantity + q
        reserved_quantity := r.reserved_quantity - q }
    else r)

/-- Result record of `checkAvailability` (types.ts `AvailabilityCheck`;
`price_cents` is an optional field, absent for an unknown sku). -/
structure AvailabilityCheck where
  sku : String
  requested_quantity : Int
  available_quantity : Int
  is_available : Bool
  price_cents : Option Int
deriving DecidableEq, Repr

/-- Embedding of `checkAvailability(sku, requestedQuantity)`
(inventory db.ts lines 27-58).  A pure read: it takes the `inventory`
table and returns only an `AvailabilityCheck`, so it can mutate nothing. -/
def checkAvailability (inv : List InvItem) (sku : String) (requestedQuantity : Int) :
    AvailabilityCheck :=
  match findItem inv sku with
  | none =>
      { sku := sku
        requested_quantity := requestedQuantity
        available_quantity := 0
        is_available := false
        price_cents := none }
  | some item =>
      { sku := sku
        requested_quantity := requestedQuantity
        available_quantity := item.available_quantity
        is_available := decide (requestedQuantity ≤ item.available_quantity)
        price_cents := some item.price_cents }

/-- C9: checkAvailability is a pure read (its embedding consumes the table
and returns only the check record), returns
is_available = (available_quantity >= qty) with the available quantity and
price for a known sku, and is_available = false with available_quantity = 0
as a normal result for an unknown sku. -/
theorem checkAvailability_spec (inv : List InvItem) (sku : String) (q : Int) :
    (∀ item, findItem inv sku = some item →
      checkAvailability inv sku q =
        { sku := sku
          requested_quantity := q
          available_quantity := item.available_quantity
          is_available := decide (q ≤ item.available_quantity)
          price_cents := some item.price_cents }) ∧
    (findItem inv sku = none →
      checkAvailability inv sku q =
        { sku := sku
          requested_quantity := q
          available_quantity := 0
          is_available := false
          price_cents := none }) := by
  constructor
  · intro item h
    simp [checkAvailability, h]
  · intro h
    simp [checkAvailability, h]

/-- Witness for C9 at concrete inputs: the sample row item-001 with stock
100 and price 2500, queried for 3 units, and the unknown sku scenario. -/
theorem checkAvailability_spec_witness :
    checkAvailability [⟨"item-001", 100, 0, 2500⟩] "item-001" 3 =
      ⟨"item-001", 3, 100, true, some 2500⟩ ∧
    checkAvailability [⟨"item-001", 100, 0, 2500⟩] "unknown-sku" 1 =
      ⟨"unknown-sku", 1, 0, false, none⟩ := by
  refine ⟨?_, ?_⟩
  · exact (checkAvailability_spec [⟨"item-001", 100, 0, 2500⟩] "item-001" 3).1
      ⟨"item-001", 100, 0, 2500⟩ (by decide)
  · exact (checkAvailability_spec [⟨"item-001", 100, 0, 2500⟩] "unknown-sku" 1).2 (by decide)

/-- Errors thrown by the reserve loop (db.ts lines 94 and 99). -/
inductive ReserveError
  | unknownSku (sku : String)
  | insufficientStock (sku : String) (available requested : Int)
deriving DecidableEq, Repr

/-- One entry of `ReserveInventoryRequest.items`. -/
structure ReserveItem where
  sku : String
  quantity : Int
deriving DecidableEq, Repr

/-- The reservation rows the reserve call inserts and returns: one per
item, in RESERVED status (the schema default applied by the INSERT at
db.ts line 110). -/
def reservedRows (order_id : String) (expires_at : Int) (items : List ReserveItem) :
    List Reservation :=
  items.map (fun it => ⟨order_id, it.sku, it.quantity, .reserved, expires_at⟩)

/-- The for-loop body of `reserveInventory` (db.ts lines 86-115), run inside
the open transaction: for each item in order, read the current availability,
throw on an unknown sku or insufficient stock, otherwise debit the
inventory row and insert a RESERVED reservation row. -/
def reserveLoop (order_id : String) (expires_at : Int) :
    InvState → List ReserveItem → Except ReserveError (InvState × List Reservation)
  | st, [] => .ok (st, [])
  | st, it :: rest =>
    match findItem st.inventory it.sku with
    | none => .error (.unknownSku it.sku)
    | some cur =>
      if cur.available_quantity < it.quantity then
        .error (.insufficientStock it.sku cur.available_quantity it.quantity)
      else
        match reserveLoop order_id expires_at
            ⟨debitItem st.inventory it.sku it.quantity,
             st.reservations ++ [⟨order_id, it.sku, it.quantity, .reserved, expires_at⟩]⟩ rest with
        | .error e => .error e
        | .ok (st', rows) =>
            .ok (st', ⟨order_id, it.sku, it.quantity, .reserved, expires_at⟩ :: rows)

/-- Embedding of `reserveInventory(request)` (db.ts lines 75-125): the loop
runs inside BEGIN/COMMIT; any thrown error triggers ROLLBACK, so the
durable state reverts to the state at entry and the error is rethrown. -/
def reserveInventory (st : InvState) (order_id : String) (items : List ReserveItem)
    (expires_at : Int) : InvState × Except ReserveError (List Reservation) :=
  match reserveLoop order_id expires_at st items with
  | .ok (st', rows) => (st', .ok rows)
  | .error e => (st, .error e)

/-- Total quantity the batch requests for a given sku. -/
def batchQty (items : List ReserveItem) (sku : String) : Int :=
  ((items.filter (fun it => it.sku == sku)).map (fun it => it.quantity)).sum

/-- The inventory table after debiting a whole batch: every row loses the
batch total for its sku from available and gains it on reserved. -/
def reserveAllInv (inv : List InvItem) (items : List ReserveItem) : List InvItem :=
  inv.map (fun r =>
    { r with
      available_quantity := r.available_quantity - batchQty items r.sku
      reserved_quantity := r.reserved_quantity + batchQty items r.sku })

theorem batchQty_cons (it : ReserveItem) (rest : List ReserveItem) (sku : String) :
    batchQty (it :: rest) sku =
      (if it.sku = sku then it.quantity else 0) + batchQty rest sku := by
  by_cases h : it.sku = sku <;> simp [batchQty, List.filter_cons, h]

theorem batchQty_nonneg (items : List ReserveItem) (sku : String)
    (hpos : ∀ it ∈ items, 0 < it.quantity) : 0 ≤ batchQty items sku := by
  induction items with
  | nil => simp [batchQty]
  | cons it rest ih =>
      rw [batchQty_cons]
      have h1 : 0 < it.quantity := hpos it (by simp)
      have h2 : 0 ≤ batchQty rest sku := ih (fun x hx => hpos x (by simp [hx]))
      by_cases h : it.sku = sku <;> simp [h] <;> omega

theorem availOf_debitItem (inv : List InvItem) (s sku : String) (q : Int) :
    availOf (debitItem inv s q) sku =
      (availOf inv sku).map (fun a => if sku = s then a - q else a) := by
  induction inv with
  | nil => simp [availOf, findItem, debitItem]
  | cons r t ih =>
      by_cases hr : r.sku = sku
      · by_cases hs : r.sku = s <;>
          simp_all [availOf, findItem, debitItem, List.find?_cons]
      · by_cases hs : r.sku = s <;>
          simp_all [availOf, findItem, debitItem, List.find?_cons]

theorem isSome_availOf_debitItem (inv : List InvItem) (s sku : String) (q : Int) :
    (availOf (debitItem inv s q) sku).isSome = (availOf inv sku).isSome := by
  rw [availOf_debitItem]; cases availOf inv sku <;> simp

theorem reserveLoop_cons (oid : String) (exp : Int) (st : InvState) (it : ReserveItem)
    (rest : List ReserveItem) :
    reserveLoop oid exp st (it :: rest) =
      match findItem st.inventory it.sku with
      | none => .error (.unknownSku it.sku)
      | some cur =>
        if cur.available_quantity < it.quantity then
          .error (.insufficientStock it.sku cur.available_quantity it.quantity)
        else
          match reserveLoop oid exp
              ⟨debitItem st.inventory it.sku it.quantity,
               st.reservations ++ [⟨oid, it.sku, it.quantity, .reserved, exp⟩]⟩ rest with
          | .error e => .error e
          | .ok (st', rows) =>
              .ok (st', ⟨oid, it.sku, it.quantity, .reserved, exp⟩ :: rows) := rfl

/-- A failing item anywhere in the batch makes the loop throw, from any
state whose skus agree with the reference state and whose availabilities
are no larger (the loop only debits, so intermediate states qualify). -/
theorem reserveLoop_error_of_bad (oid : String) (exp : Int) (items : List ReserveItem)
    (st stLow : InvState)
    (hsome : ∀ sku, (availOf stLow.inventory sku).isSome = (availOf st.inventory sku).isSome)
    (hle : ∀ sku a a', availOf st.inventory sku = some a →
      availOf stLow.inventory sku = some a' → a' ≤ a)
    (hpos : ∀ it ∈ items, 0 < it.quantity)
    (hbad : ∃ it ∈ items, availOf st.inventory it.sku = none ∨
      ∃ a, availOf st.inventory it.sku = some a ∧ a < it.quantity) :
    ∃ e, reserveLoop oid exp stLow items = .error e := by
  induction items generalizing stLow with
  | nil => simp at hbad
  | cons it rest ih =>
      cases hfind : findItem stLow.inventory it.sku with
      | none =>
          exact ⟨.unknownSku it.sku, by rw [reserveLoop_cons]; simp [hfind]⟩
      | some cur =>
          by_cases hlt : cur.available_quantity < it.quantity
          · exact ⟨.insufficientStock it.sku cur.available_quantity it.quantity,
              by rw [reserveLoop_cons]; simp [hfind, hlt]⟩
          · have hlowsome : availOf stLow.inventory it.sku = some cur.available_quantity := by
              simp [availOf, hfind]
            -- the head item is not the failing one: its stock suffices even in st
            have hhead_ok : ¬ (availOf st.inventory it.sku = none ∨
                ∃ a, availOf st.inventory it.sku = some a ∧ a < it.quantity) := by
              rintro (hnone | ⟨a, ha, hlt'⟩)
              · have := hsome it.sku
                rw [hnone, hlowsome] at this
                simp at this
              · have := hle it.sku a cur.available_quantity ha hlowsome
                omega
            have hbad' : ∃ x ∈ rest, availOf st.inventory x.sku = none ∨
                ∃ a, availOf st.inventory x.sku = some a ∧ a < x.quantity := by
              rcases hbad with ⟨x, hx, hxbad⟩
              rcases List.mem_cons.mp hx with rfl | hx'
              · exact absurd hxbad hhead_ok
              · exact ⟨x, hx', hxbad⟩
            have hq : 0 < it.quantity := hpos it (by simp)
            set st1 : InvState :=
              ⟨debitItem stLow.inventory it.sku it.quantity,
               stLow.reservations ++ [⟨oid, it.sku, it.quantity, .reserved, exp⟩]⟩ with hst1
            have hsome1 : ∀ sku, (availOf st1.inventory sku).isSome =
                (availOf st.inventory sku).isSome := by
              intro sku
              rw [hst1]
              show (availOf (debitItem stLow.inventory it.sku it.quantity) sku).isSome = _
              rw [isSome_availOf_debitItem]
              exact hsome sku
            have hle1 : ∀ sku a a', availOf st.inventory sku = some a →
                availOf st1.inventory sku = some a' → a' ≤ a := by
              intro sku a a' ha ha'
              rw [hst1] at ha'
              have hmap := availOf_debitItem stLow.inventory it.sku sku it.quantity
              rw [hmap] at ha'
              rcases Option.map_eq_some'.mp ha' with ⟨b, hb, hba⟩
              have hba' := hle sku a b ha hb
              by_cases hsk : sku = it.sku <;> simp [hsk] at hba <;> omega
            rcases ih st1 hsome1 hle1 (fun x hx => hpos x (by simp [hx])) hbad' with ⟨e, he⟩
            rw [hst1] at he
            refine ⟨e, ?_⟩
            rw [reserveLoop_cons]
            simp only [hfind]
            rw [if_neg hlt]
            simp only [he]

theorem reserveAllInv_nil (inv : List InvItem) : reserveAllInv inv [] = inv := by
  unfold reserveAllInv
  have : ∀ r : InvItem,
      ({ r with
         available_quantity := r.available_quantity - batchQty [] r.sku
         reserved_quantity := r.reserved_quantity + batchQty [] r.sku }) = r := by
    intro r; simp [batchQty]
  simp only [this, List.map_id_fun', id]

theorem reserveAllInv_cons (inv : List InvItem) (it : ReserveItem) (rest : List ReserveItem) :
    reserveAllInv inv (it :: rest) =
      reserveAllInv (debitItem inv it.sku it.quantity) rest := by
  unfold reserveAllInv debitItem
  rw [List.map_map]
  apply List.map_congr_left
  intro r _
  by_cases h : r.sku = it.sku
  · simp [Function.comp, h, batchQty_cons]; constructor <;> ring
  · have h' : ¬ it.sku = r.sku := fun hc => h hc.symm
    simp [Function.comp, h, h', batchQty_cons]

/-- When every item has a known sku and the batch total per sku fits within
the available quantity, the loop succeeds: the whole batch is debited and
one RESERVED row per item is appended and returned. -/
theorem reserveLoop_ok (oid : String) (exp : Int) (items : List ReserveItem) (st : InvState)
    (hpos : ∀ it ∈ items, 0 < it.quantity)
    (hav : ∀ it ∈ items, ∃ a, availOf st.inventory it.sku = some a ∧
      batchQty items it.sku ≤ a) :
    reserveLoop oid exp st items =
      .ok (⟨reserveAllInv st.inventory items,
            st.reservations ++ reservedRows oid exp items⟩,
           reservedRows oid exp items) := by
  induction items generalizing st with
  | nil =>
      cases st with
      | mk inv res => simp [reserveLoop, reservedRows, reserveAllInv_nil]
  | cons it rest ih =>
      rcases hav it (by simp) with ⟨a, ha, hbatch⟩
      rcases Option.map_eq_some'.mp ha with ⟨cur, hfind, hcur⟩
      have hrest_nonneg : 0 ≤ batchQty rest it.sku :=
        batchQty_nonneg rest it.sku (fun x hx => hpos x (by simp [hx]))
      have hq : 0 < it.quantity := hpos it (by simp)
      have hbatch_cons : batchQty (it :: rest) it.sku = it.quantity + batchQty rest it.sku := by
        simp [batchQty_cons]
      have hnlt : ¬ cur.available_quantity < it.quantity := by omega
      rw [reserveLoop]
      set st1 : InvState :=
        ⟨debitItem st.inventory it.sku it.quantity,
         st.reservations ++ [⟨oid, it.sku, it.quantity, .reserved, exp⟩]⟩ with hst1
      have hav1 : ∀ x ∈ rest, ∃ a, availOf st1.inventory x.sku = some a ∧
          batchQty rest x.sku ≤ a := by
        intro x hx
        rcases hav x (by simp [hx]) with ⟨b, hb, hbb⟩
        rw [hst1]
        refine ⟨if x.sku = it.sku then b - it.quantity else b, ?_, ?_⟩
        · show availOf (debitItem st.inventory it.sku it.quantity) x.sku = _
          rw [availOf_debitItem, hb]
          rfl
        · rw [batchQty_cons] at hbb
          by_cases hsk : x.sku = it.sku
          · rw [if_pos hsk]
            rw [if_pos hsk.symm] at hbb
            omega
          · rw [if_neg hsk]
            rw [if_neg (fun hc => hsk hc.symm)] at hbb
            omega
      have hrec := ih st1 (fun x hx => hpos x (by simp [hx])) hav1
      rw [hfind]
      simp only [hnlt, if_false, ← hst1, hrec]
      rw [← reserveAllInv_cons]
      simp [reservedRows, List.append_assoc]

/-- C1: reserve(order_id, items, expiration) is all-or-nothing.  If any item
names an unknown sku or requests more than that sku has available, the call
returns an error and both the inventory table and the reservations table are
exactly the pre-call state; if every item fits (all skus known and the batch
total per sku within the available quantity), every item quantity moves from
available to reserved and one RESERVED reservation row per item is created
and returned.  Item quantities are positive, as enforced before this code by
route validation and by the schema constraint CHECK (quantity > 0). -/
theorem reserveInventory_all_or_nothing (st : InvState) (oid : String)
    (items : List ReserveItem) (exp : Int)
    (hpos : ∀ it ∈ items, 0 < it.quantity) :
    ((∃ it ∈ items, availOf st.inventory it.sku = none ∨
        ∃ a, availOf st.inventory it.sku = some a ∧ a < it.quantity) →
      ∃ e, reserveInventory st oid items exp = (st, .error e)) ∧
    ((∀ it ∈ items, ∃ a, availOf st.inventory it.sku = some a ∧
        batchQty items it.sku ≤ a) →
      reserveInventory st oid items exp =
        (⟨reserveAllInv st.inventory items,
          st.reservations ++ reservedRows oid exp items⟩,
         .ok (reservedRows oid exp items))) := by
  constructor
  · intro hbad
    rcases reserveLoop_error_of_bad oid exp items st st (fun _ => rfl)
      (fun sku a a' h h' => by rw [h] at h'; simp at h'; omega) hpos hbad with ⟨e, he⟩
    exact ⟨e, by simp [reserveInventory, he]⟩
  · intro hav
    have h := reserveLoop_ok oid exp items st hpos hav
    simp [reserveInventory, h]

/-- Witness for C1 at concrete inputs, following the scenario of spec §8:
reserving 99 units of item-001 when only 98 are available fails and leaves
the state untouched, while reserving 2 units of item-001 and 1 of item-002
against stock (100, 50) succeeds, moving the quantities and creating the
two RESERVED rows. -/
theorem reserveInventory_all_or_nothing_witness :
    (∃ e, reserveInventory ⟨[⟨"item-001", 98, 2, 2500⟩], []⟩ "o2"
        [⟨"item-001", 99⟩] 0 =
      (⟨[⟨"item-001", 98, 2, 2500⟩], []⟩, .error e)) ∧
    reserveInventory
        ⟨[⟨"item-001", 100, 0, 2500⟩, ⟨"item-002", 50, 0, 1500⟩], []⟩ "o1"
        [⟨"item-001", 2⟩, ⟨"item-002", 1⟩] 0 =
      (⟨[⟨"item-001", 98, 2, 2500⟩, ⟨"item-002", 49, 1, 1500⟩],
        [⟨"o1", "item-001", 2, .reserved, 0⟩, ⟨"o1", "item-002", 1, .reserved, 0⟩]⟩,
       .ok [⟨"o1", "item-001", 2, .reserved, 0⟩,
            ⟨"o1", "item-002", 1, .reserved, 0⟩]) := by
  constructor
  · exact (reserveInventory_all_or_nothing ⟨[⟨"item-001", 98, 2, 2500⟩], []⟩ "o2"
      [⟨"item-001", 99⟩] 0 (by decide)).1
      ⟨⟨"item-001", 99⟩, by decide, Or.inr ⟨98, by decide, by decide⟩⟩
  · have hav : ∀ it ∈ ([⟨"item-001", 2⟩, ⟨"item-002", 1⟩] : List ReserveItem),
        ∃ a, availOf ([⟨"item-001", 100, 0, 2500⟩,
          ⟨"item-002", 50, 0, 1500⟩] : List InvItem) it.sku = some a ∧
          batchQty [⟨"item-001", 2⟩, ⟨"item-002", 1⟩] it.sku ≤ a := by
      intro it hit
      fin_cases hit
      · exact ⟨100, by decide, by decide⟩
      · exact ⟨50, by decide, by decide⟩
    have h := (reserveInventory_all_or_nothing
      ⟨[⟨"item-001", 100, 0, 2500⟩, ⟨"item-002", 50, 0, 1500⟩], []⟩ "o1"
      [⟨"item-001", 2⟩, ⟨"item-002", 1⟩] 0 (by decide)).2 hav
    rw [h]
    rfl

/-- The row condition shared by the SELECT (db.ts lines 155-158) and the
status UPDATE (db.ts lines 169-172) of releaseReservation:
`order_id = $ AND status IN (RESERVED, CONFIRMED)`. -/
def isActiveFor (order_id : String) (r : Reservation) : Bool :=
  r.order_id == order_id &&
    (r.status == ResStatus.reserved || r.status == ResStatus.confirmed)

/-- The reservations the release SELECT returns. -/
def activeRows (resv : List Reservation) (order_id : String) : List Reservation :=
  resv.filter (isActiveFor order_id)

/-- Embedding of `confirmReservation(orderId)` (db.ts lines 127-146): a
single UPDATE that sets status CONFIRMED on every row of the order whose
status is RESERVED; rows affected may be zero and no error is raised. -/
def confirmReservation (st : InvState) (order_id : String) : InvState :=
  { st with
    reservations := st.reservations.map (fun r =>
      if r.order_id == order_id && r.status == ResStatus.reserved then
        { r with status := ResStatus.confirmed }
      else r) }

/-- Embedding of `releaseReservation(request)` (db.ts lines 148-181): select
the RESERVED or CONFIRMED rows of the order, credit each quantity back to
its inventory row, then mark all those rows RELEASED; all inside one
transaction. -/
def releaseReservation (st : InvState) (order_id : String) : InvState :=
  { inventory := (activeRows st.reservations order_id).foldl
      (fun inv r => creditItem inv r.sku r.quantity) st.inventory
    reservations := st.reservations.map (fun r =>
      if isActiveFor order_id r then { r with status := ResStatus.released } else r) }

/-- Total quantity a list of reservations holds against a given sku. -/
def heldQty (resv : List Reservation) (sku : String) : Int :=
  ((resv.filter (fun r => r.sku == sku)).map (fun r => r.quantity)).sum

theorem heldQty_cons (r : Reservation) (t : List Reservation) (sku : String) :
    heldQty (r :: t) sku = (if r.sku = sku then r.quantity else 0) + heldQty t sku := by
  by_cases h : r.sku = sku <;> simp [heldQty, List.filter_cons, h]

/-- Folding the per-row credit UPDATE over a list of reservations adds, for
every inventory row, exactly the total quantity held against its sku. -/
theorem creditFold (L : List Reservation) (inv : List InvItem) :
    L.foldl (fun inv r => creditItem inv r.sku r.quantity) inv =
      inv.map (fun row =>
        { row with
          available_quantity := row.available_quantity + heldQty L row.sku
          reserved_quantity := row.reserved_quantity - heldQty L row.sku }) := by
  induction L generalizing inv with
  | nil =>
      have : ∀ row : InvItem,
          ({ row with
             available_quantity := row.available_quantity + heldQty [] row.sku
             reserved_quantity := row.reserved_quantity - heldQty [] row.sku }) = row := by
        intro row; simp [heldQty]
      simp only [List.foldl_nil, this, List.map_id_fun', id]
  | cons r t ih =>
      rw [List.foldl_cons, ih, creditItem, List.map_map]
      apply List.map_congr_left
      intro row _
      by_cases h : row.sku = r.sku
      · simp [Function.comp, h, heldQty_cons]
        constructor <;> ring
      · have h' : ¬ r.sku = row.sku := fun hc => h hc.symm
        simp [Function.comp, h, h', heldQty_cons]

/-- C5: confirm(order_id) sets every RESERVED reservation of the order to
CONFIRMED, leaves every other reservation row and the whole inventory table
unchanged, and is a no-op rather than an error when the order has no
RESERVED reservations. -/
theorem confirmReservation_spec (st : InvState) (oid : String) :
    (confirmReservation st oid).inventory = st.inventory ∧
    (∀ i r, st.reservations.get? i = some r →
      (confirmReservation st oid).reservations.get? i =
        some (if r.order_id = oid ∧ r.status = ResStatus.reserved then
          { r with status := ResStatus.confirmed } else r)) ∧
    ((∀ r ∈ st.reservations, ¬(r.order_id = oid ∧ r.status = ResStatus.reserved)) →
      confirmReservation st oid = st) := by
  refine ⟨rfl, ?_, ?_⟩
  · intro i r hr
    show (st.reservations.map _).get? i = _
    rw [List.get?_map, hr]
    by_cases h1 : r.order_id = oid
    · by_cases h2 : r.status = ResStatus.reserved <;> simp [h1, h2]
    · simp [h1]
  · intro hnone
    show ({ st with reservations := _ } : InvState) = st
    have : st.reservations.map (fun r =>
(if r.order_id == oid && r.status == ResStatus.reserved then
          { r with status := ResStatus.confirmed } else r)) = st.reservations := by
      have := List.map_congr_left (l := st.reservations)
        (f := fun r : Reservation =>
          if r.order_id == oid && r.status == ResStatus.reserved then
            { r with status := ResStatus.confirmed } else r) (g := id) ?_
      · simpa using this
      · intro r hr
        have hc := hnone r hr
        have : ¬(r.order_id == oid && r.status == ResStatus.reserved) = true := by
          simp only [Bool.and_eq_true, beq_iff_eq]
          exact fun ⟨ha, hb⟩ => hc ⟨ha, hb⟩
        simp [this]
    rw [this]

/-- Witness for C5 at a concrete state: order o1 has one RESERVED row,
which turns CONFIRMED while the RESERVED row of order o2 and the RELEASED
row of o1 are untouched; on a state whose only row for o1 is already
CONFIRMED, confirm is the identity. -/
theorem confirmReservation_spec_witness :
    (confirmReservation
        ⟨[⟨"item-001", 98, 2, 2500⟩],
         [⟨"o1", "item-001", 2, .reserved, 5⟩, ⟨"o2", "item-001", 1, .reserved, 5⟩,
          ⟨"o1", "item-002", 3, .released, 5⟩]⟩ "o1").reservations.get? 0 =
      some ⟨"o1", "item-001", 2, .confirmed, 5⟩ ∧
    confirmReservation ⟨[], [⟨"o1", "item-001", 2, .confirmed, 5⟩]⟩ "o1" =
      ⟨[], [⟨"o1", "item-001", 2, .confirmed, 5⟩]⟩ := by
  constructor
  · have h := (confirmReservation_spec
      ⟨[⟨"item-001", 98, 2, 2500⟩],
       [⟨"o1", "item-001", 2, .reserved, 5⟩, ⟨"o2", "item-001", 1, .reserved, 5⟩,
        ⟨"o1", "item-002", 3, .released, 5⟩]⟩ "o1").2.1 0
      ⟨"o1", "item-001", 2, .reserved, 5⟩ (by decide)
    rw [h]
    rfl
  · exact (confirmReservation_spec ⟨[], [⟨"o1", "item-001", 2, .confirmed, 5⟩]⟩ "o1").2.2
      (by decide)

/-- A release on an order with no RESERVED or CONFIRMED reservations
changes nothing: the credit loop runs over an empty selection and the
status UPDATE matches no row. -/
theorem releaseReservation_noop (st : InvState) (oid : String)
    (h : activeRows st.reservations oid = []) : releaseReservation st oid = st := by
  have hfalse : ∀ r ∈ st.reservations, ¬ isActiveFor oid r = true :=
    List.filter_eq_nil_iff.mp h
  unfold releaseReservation
  rw [h, List.foldl_nil]
  have : st.reservations.map (fun r =>
      if isActiveFor oid r then { r with status := ResStatus.released } else r) =
      st.reservations := by
    have := List.map_congr_left (l := st.reservations)
      (f := fun r : Reservation =>
        if isActiveFor oid r then { r with status := ResStatus.released } else r)
      (g := id) ?_
    · simpa using this
    · intro r hr
      simp [hfalse r hr]
  rw [this]

/-- After a release, the order holds no RESERVED or CONFIRMED reservation. -/
theorem activeRows_release (st : InvState) (oid : String) :
    activeRows (releaseReservation st oid).reservations oid = [] := by
  apply List.filter_eq_nil_iff.mpr
  intro x hx
  rcases List.mem_map.mp hx with ⟨r, _, rfl⟩
  by_cases hc : isActiveFor oid r
  · simp only [hc, if_true]
    simp [isActiveFor]
  · simp [hc]

/-- C4: release(order_id) credits each RESERVED or CONFIRMED reservation
of the order back to stock exactly once (per inventory row, available
grows and reserved shrinks by the total held against its sku), marks those
rows RELEASED while leaving all other rows unchanged, is idempotent, and
is a no-op rather than an error when the order has no such reservation. -/
theorem releaseReservation_spec (st : InvState) (oid : String) :
    (releaseReservation st oid).inventory = st.inventory.map (fun row =>
      { row with
        available_quantity := row.available_quantity +
          heldQty (activeRows st.reservations oid) row.sku
        reserved_quantity := row.reserved_quantity -
          heldQty (activeRows st.reservations oid) row.sku }) ∧
    (∀ i r, st.reservations.get? i = some r →
      (releaseReservation st oid).reservations.get? i =
        some (if r.order_id = oid ∧
            (r.status = ResStatus.reserved ∨ r.status = ResStatus.confirmed) then
          { r with status := ResStatus.released } else r)) ∧
    releaseReservation (releaseReservation st oid) oid = releaseReservation st oid ∧
    (activeRows st.reservations oid = [] → releaseReservation st oid = st) := by
  refine ⟨creditFold _ _, ?_, ?_, releaseReservation_noop st oid⟩
  · intro i r hr
    show (st.reservations.map _).get? i = _
    rw [List.get?_map, hr]
    by_cases h1 : r.order_id = oid
    · by_cases h2 : r.status = ResStatus.reserved
      · simp [isActiveFor, h1, h2]
      · by_cases h3 : r.status = ResStatus.confirmed <;>
          simp [isActiveFor, h1, h2, h3]
    · simp [isActiveFor, h1]
  · exact releaseReservation_noop (releaseReservation st oid) oid
      (activeRows_release st oid)

/-- Witness for C4 at a concrete state following the reserve-then-release
scenario of spec §8: releasing order o1 restores stock to its
pre-reservation values and marks the rows RELEASED; releasing again is the
identity, and releasing an order with no active rows is the identity. -/
theorem releaseReservation_spec_witness :
    (releaseReservation
        ⟨[⟨"item-001", 98, 2, 2500⟩, ⟨"item-002", 49, 1, 1500⟩],
         [⟨"o1", "item-001", 2, .reserved, 5⟩,
          ⟨"o1", "item-002", 1, .confirmed, 5⟩]⟩ "o1").inventory =
      [⟨"item-001", 100, 0, 2500⟩, ⟨"item-002", 50, 0, 1500⟩] ∧
    (releaseReservation
        ⟨[⟨"item-001", 98, 2, 2500⟩, ⟨"item-002", 49, 1, 1500⟩],
         [⟨"o1", "item-001", 2, .reserved, 5⟩,
          ⟨"o1", "item-002", 1, .confirmed, 5⟩]⟩ "o1").reservations.get? 0 =
      some ⟨"o1", "item-001", 2, .released, 5⟩ ∧
    releaseReservation ⟨[⟨"item-001", 98, 2, 2500⟩],
        [⟨"o2", "item-001", 2, .released, 5⟩]⟩ "o2" =
      ⟨[⟨"item-001", 98, 2, 2500⟩], [⟨"o2", "item-001", 2, .released, 5⟩]⟩ := by
  refine ⟨?_, ?_, ?_⟩
  · have h := (releaseReservation_spec
      ⟨[⟨"item-001", 98, 2, 2500⟩, ⟨"item-002", 49, 1, 1500⟩],
       [⟨"o1", "item-001", 2, .reserved, 5⟩,
        ⟨"o1", "item-002", 1, .confirmed, 5⟩]⟩ "o1").1
    rw [h]
    rfl
  · have h := (releaseReservation_spec
      ⟨[⟨"item-001", 98, 2, 2500⟩, ⟨"item-002", 49, 1, 1500⟩],
       [⟨"o1", "item-001", 2, .reserved, 5⟩,
        ⟨"o1", "item-002", 1, .confirmed, 5⟩]⟩ "o1").2.1 0
      ⟨"o1", "item-001", 2, .reserved, 5⟩ (by decide)
    rw [h]
    rfl
  · exact (releaseReservation_spec ⟨[⟨"item-001", 98, 2, 2500⟩],
      [⟨"o2", "item-001", 2, .released, 5⟩]⟩ "o2").2.2.2 (by decide)

/-- The per-row stock total the invariant of C3 tracks: for every inventory
row, its sku paired with available_quantity + reserved_quantity. -/
def stockTotals (inv : List InvItem) : List (String × Int) :=
  inv.map (fun r => (r.sku, r.available_quantity + r.reserved_quantity))

/-- One call into the inventory data-access module, with arbitrary
arguments. -/
inductive InvOp
  | reserve (order_id : String) (items : List ReserveItem) (expires_at : Int)
  | confirm (order_id : String)
  | release (order_id : String)

/-- The durable state after one call: reserve keeps the committed state on
success and the rolled-back state on failure; confirm and release always
commit. -/
def applyOp (st : InvState) : InvOp → InvState
  | .reserve oid items exp => (reserveInventory st oid items exp).1
  | .confirm oid => confirmReservation st oid
  | .release oid => releaseReservation st oid

def runOps (st : InvState) (ops : List InvOp) : InvState :=
  ops.foldl applyOp st

theorem stockTotals_debitItem (inv : List InvItem) (s : String) (q : Int) :
    stockTotals (debitItem inv s q) = stockTotals inv := by
  unfold stockTotals debitItem
  rw [List.map_map]
  apply List.map_congr_left
  intro r _
  by_cases h : r.sku = s <;> simp [Function.comp, h]

theorem stockTotals_creditItem (inv : List InvItem) (s : String) (q : Int) :
    stockTotals (creditItem inv s q) = stockTotals inv := by
  unfold stockTotals creditItem
  rw [List.map_map]
  apply List.map_congr_left
  intro r _
  by_cases h : r.sku = s <;> simp [Function.comp, h]

theorem reserveLoop_stockTotals (oid : String) (exp : Int) :
    ∀ (items : List ReserveItem) (st st' : InvState) (rows : List Reservation),
    reserveLoop oid exp st items = .ok (st', rows) →
    stockTotals st'.inventory = stockTotals st.inventory := by
  intro items
  induction items with
  | nil =>
      intro st st' rows h
      rw [reserveLoop] at h
      cases h
      rfl
  | cons it rest ih =>
      intro st st' rows h
      rw [reserveLoop_cons] at h
      cases hfind : findItem st.inventory it.sku with
      | none => simp [hfind] at h
      | some cur =>
          simp only [hfind] at h
          by_cases hlt : cur.available_quantity < it.quantity
          · rw [if_pos hlt] at h; cases h
          · rw [if_neg hlt] at h
            cases hrec : reserveLoop oid exp
                ⟨debitItem st.inventory it.sku it.quantity,
                 st.reservations ++ [⟨oid, it.sku, it.quantity, .reserved, exp⟩]⟩ rest with
            | error e => rw [hrec] at h; cases h
            | ok p =>
                rw [hrec] at h
                cases h
                have := ih _ p.1 p.2 (by rw [hrec])
                rw [this]
                exact stockTotals_debitItem st.inventory it.sku it.quantity

theorem stockTotals_applyOp (st : InvState) (op : InvOp) :
    stockTotals (applyOp st op).inventory = stockTotals st.inventory := by
  cases op with
  | reserve oid items exp =>
      show stockTotals (reserveInventory st oid items exp).1.inventory = _
      unfold reserveInventory
      cases hloop : reserveLoop oid exp st items with
      | error e => rfl
      | ok p => exact reserveLoop_stockTotals oid exp items st p.1 p.2 hloop
  | confirm oid => rfl
  | release oid =>
      show stockTotals ((activeRows st.reservations oid).foldl
        (fun inv r => creditItem inv r.sku r.quantity) st.inventory) = _
      generalize activeRows st.reservations oid = L
      induction L generalizing st with
      | nil => rfl
      | cons r t ih =>
          rw [List.foldl_cons]
          have h1 := ih ⟨creditItem st.inventory r.sku r.quantity, st.reservations⟩
          simp only at h1
          rw [h1]
          exact stockTotals_creditItem st.inventory r.sku r.quantity

/-- C3: for every sku, available_quantity + reserved_quantity is invariant
under any sequence of reserve, confirm and release calls, with any
arguments, whether they succeed or fail; so it always equals the initial
total stock of the sku. -/
theorem stockTotals_invariant (st : InvState) (ops : List InvOp) :
    stockTotals (runOps st ops).inventory = stockTotals st.inventory := by
  induction ops generalizing st with
  | nil => rfl
  | cons op rest ih =>
      show stockTotals (runOps (applyOp st op) rest).inventory = _
      rw [ih (applyOp st op), stockTotals_applyOp]

/-! ### Payment settlement engine

Embedding of `services/payment/src/db.ts` over the `payments` table.  Rows
are immutable once inserted; refunds append new rows.  The generated ids,
the simulated gateway outcome and the NOW() timestamp are parameters of the
embedded operations. -/

/-- Status column of a payments row (schema CHECK admits exactly these). -/
inductive PayStatus
  | pending
  | completed
  | failed
  | refunded
deriving DecidableEq, Repr

/-- A row of the `payments` table (columns the data-access code uses). -/
structure Payment where
  id : String
  order_id : String
  amount_cents : Int
  currency : String
  status : PayStatus
  payment_method : String
  created_at : Int
deriving DecidableEq, Repr

/-- `SELECT * FROM payments WHERE id = $1` (db.ts lines 51-59). -/
def getPaymentById (db : List Payment) (paymentId : String) : Option Payment :=
  db.find? (fun p => p.id == paymentId)

/-- Errors thrown by refundPayment (db.ts lines 123 and 127). -/
inductive RefundError
  | paymentNotFound
  | invalidState
deriving DecidableEq, Repr

/-- The JS expression `request.amount_cents || originalPayment.amount_cents`
(db.ts line 132): an absent amount falls back to the full original amount,
and so does an explicit amount of 0, because 0 is falsy in JS. -/
def refundAmount (requested : Option Int) (original : Int) : Int :=
  match requested with
  | none => original
  | some v => if v = 0 then original else v

/-- Embedding of `refundPayment(request)` (db.ts lines 114-170): look up the
referenced payment, reject an unknown id or a non-COMPLETED status, invoke
the gateway, and append one new row carrying the negated refund amount, the
original order_id, currency and payment_method, with status REFUNDED on
gateway success and FAILED otherwise.  No existing row is modified. -/
def refundPayment (db : List Payment) (payment_id : String) (amount_cents : Option Int)
    (refundId : String) (gatewayOk : Bool) (now : Int) :
    Except RefundError (List Payment × Payment) :=
  match getPaymentById db payment_id with
  | none => .error .paymentNotFound
  | some orig =>
    if orig.status = PayStatus.completed then
      let row : Payment :=
        { id := refundId
          order_id := orig.order_id
          amount_cents := -(refundAmount amount_cents orig.amount_cents)
          currency := orig.currency
          status := if gatewayOk then .refunded else .failed
          payment_method := orig.payment_method
          created_at := now }
      .ok (db ++ [row], row)
    else .error .invalidState

/-- Shape of the successful refund path: with a COMPLETED original, the
call appends exactly the refund row built from the original. -/
theorem refundPayment_completed_ok (db : List Payment) (pid : String) (amt : Option Int)
    (rid : String) (gw : Bool) (now : Int) (orig : Payment)
    (h : getPaymentById db pid = some orig) (hs : orig.status = PayStatus.completed) :
    refundPayment db pid amt rid gw now =
      .ok (db ++ [⟨rid, orig.order_id, -(refundAmount amt orig.amount_cents),
                   orig.currency, if gw then PayStatus.refunded else PayStatus.failed,
                   orig.payment_method, now⟩],
           ⟨rid, orig.order_id, -(refundAmount amt orig.amount_cents), orig.currency,
            if gw then PayStatus.refunded else PayStatus.failed,
            orig.payment_method, now⟩) := by
  simp [refundPayment, h, hs]

/-- C6: refundPayment fails with PaymentNotFound on an unknown id, with
InvalidState when the referenced transaction is not COMPLETED, defaults the
refund amount to the full original amount when unspecified, and otherwise
appends exactly one new row with the negated refund amount, status REFUNDED
or FAILED, and the original order_id, currency and payment_method; every
pre-existing row, the original included, is left as it was. -/
theorem refundPayment_spec (db : List Payment) (pid : String) (amt : Option Int)
    (rid : String) (gw : Bool) (now : Int) :
    (getPaymentById db pid = none →
      refundPayment db pid amt rid gw now = .error .paymentNotFound) ∧
    (∀ orig, getPaymentById db pid = some orig → orig.status ≠ PayStatus.completed →
      refundPayment db pid amt rid gw now = .error .invalidState) ∧
    (∀ orig, getPaymentById db pid = some orig → orig.status = PayStatus.completed →
      ∃ row, refundPayment db pid amt rid gw now = .ok (db ++ [row], row) ∧
        row.amount_cents = -(refundAmount amt orig.amount_cents) ∧
        (amt = none → row.amount_cents = -orig.amount_cents) ∧
        row.order_id = orig.order_id ∧
        row.currency = orig.currency ∧
        row.payment_method = orig.payment_method ∧
        row.status = (if gw then PayStatus.refunded else PayStatus.failed)) := by
  refine ⟨?_, ?_, ?_⟩
  · intro h
    simp [refundPayment, h]
  · intro orig h hs
    simp [refundPayment, h, hs]
  · intro orig h hs
    refine ⟨{ id := rid
              order_id := orig.order_id
              amount_cents := -(refundAmount amt orig.amount_cents)
              currency := orig.currency
              status := if gw then PayStatus.refunded else PayStatus.failed
              payment_method := orig.payment_method
              created_at := now }, ?_, rfl, ?_, rfl, rfl, rfl, rfl⟩
    · simp [refundPayment, h, hs]
    · intro ha
      simp [refundAmount, ha]

/-- Witness for C6 at a concrete ledger: a COMPLETED payment of 2500 for
order o1 and a PENDING payment; refunding the unknown id fails with
PaymentNotFound, refunding the PENDING payment fails with InvalidState, and
an unspecified-amount refund of the COMPLETED payment appends the row with
amount -2500 and the original fields. -/
theorem refundPayment_spec_witness :
    refundPayment [⟨"p1", "o1", 2500, "USD", .completed, "credit_card", 0⟩,
        ⟨"p2", "o1", 100, "USD", .pending, "paypal", 1⟩] "zzz" none "r1" true 2 =
      .error .paymentNotFound ∧
    refundPayment [⟨"p1", "o1", 2500, "USD", .completed, "credit_card", 0⟩,
        ⟨"p2", "o1", 100, "USD", .pending, "paypal", 1⟩] "p2" none "r1" true 2 =
      .error .invalidState ∧
    ∃ row, refundPayment [⟨"p1", "o1", 2500, "USD", .completed, "credit_card", 0⟩,
        ⟨"p2", "o1", 100, "USD", .pending, "paypal", 1⟩] "p1" none "r1" true 2 =
      .ok ([⟨"p1", "o1", 2500, "USD", .completed, "credit_card", 0⟩,
            ⟨"p2", "o1", 100, "USD", .pending, "paypal", 1⟩] ++ [row], row) ∧
      row.amount_cents = -2500 ∧ row.order_id = "o1" ∧ row.currency = "USD" ∧
      row.payment_method = "credit_card" ∧ row.status = PayStatus.refunded := by
  refine ⟨?_, ?_, ?_⟩
  · exact (refundPayment_spec [⟨"p1", "o1", 2500, "USD", .completed, "credit_card", 0⟩,
      ⟨"p2", "o1", 100, "USD", .pending, "paypal", 1⟩] "zzz" none "r1" true 2).1 (by decide)
  · exact (refundPayment_spec [⟨"p1", "o1", 2500, "USD", .completed, "credit_card", 0⟩,
      ⟨"p2", "o1", 100, "USD", .pending, "paypal", 1⟩] "p2" none "r1" true 2).2.1
      ⟨"p2", "o1", 100, "USD", .pending, "paypal", 1⟩ (by decide) (by decide)
  · rcases (refundPayment_spec [⟨"p1", "o1", 2500, "USD", .completed, "credit_card", 0⟩,
      ⟨"p2", "o1", 100, "USD", .pending, "paypal", 1⟩] "p1" none "r1" true 2).2.2
      ⟨"p1", "o1", 2500, "USD", .completed, "credit_card", 0⟩ (by decide) (by decide) with
      ⟨row, h1, h2, h3, h4, h5, h6, h7⟩
    exact ⟨row, h1, h3 rfl, h4, h5, h6, h7⟩

/-- C7 counterexample: the claim that a second refund of an already fully
refunded payment fails with InvalidState is false.  Concretely: payment p1
(2500, COMPLETED) is fully refunded once, the ledger then holds p1 and the
refund row r1; a second refundPayment on p1 succeeds and appends a second
full refund row, because the refund only inspects the status of the row p1
itself, which refunds never mutate. -/
theorem double_refund_not_rejected :
    refundPayment [⟨"p1", "o1", 2500, "USD", .completed, "credit_card", 0⟩]
        "p1" none "r1" true 1 =
      .ok ([⟨"p1", "o1", 2500, "USD", .completed, "credit_card", 0⟩,
            ⟨"r1", "o1", -2500, "USD", .refunded, "credit_card", 1⟩],
           ⟨"r1", "o1", -2500, "USD", .refunded, "credit_card", 1⟩) ∧
    refundPayment [⟨"p1", "o1", 2500, "USD", .completed, "credit_card", 0⟩,
        ⟨"r1", "o1", -2500, "USD", .refunded, "credit_card", 1⟩]
        "p1" none "r2" true 2 =
      .ok ([⟨"p1", "o1", 2500, "USD", .completed, "credit_card", 0⟩,
            ⟨"r1", "o1", -2500, "USD", .refunded, "credit_card", 1⟩,
            ⟨"r2", "o1", -2500, "USD", .refunded, "credit_card", 2⟩],
           ⟨"r2", "o1", -2500, "USD", .refunded, "credit_card", 2⟩) := by
  constructor <;> rfl

/-- C7 amended: a repeated refundPayment on the same payment_id is not
rejected.  Because refunds are appended as new rows and the original row is
never mutated, the referenced transaction still has status COMPLETED after
a full refund, so a second call succeeds and appends another negative row;
InvalidState arises only when the referenced transaction itself is not
COMPLETED. -/
theorem refund_after_full_refund_succeeds (db : List Payment) (pid rid : String)
    (gw : Bool) (now : Int) (orig : Payment)
    (hfind : getPaymentById db pid = some orig)
    (hstatus : orig.status = PayStatus.completed)
    (_hprior : ∃ r ∈ db, r.order_id = orig.order_id ∧
      r.amount_cents = -orig.amount_cents ∧ r.status = PayStatus.refunded) :
    ∃ row, refundPayment db pid none rid gw now = .ok (db ++ [row], row) ∧
      row.amount_cents = -orig.amount_cents := by
  refine ⟨_, refundPayment_completed_ok db pid none rid gw now orig hfind hstatus, ?_⟩
  show -(refundAmount none orig.amount_cents) = -orig.amount_cents
  rfl

/-- Witness for the amended C7 at the concrete double-refund ledger. -/
theorem refund_after_full_refund_succeeds_witness :
    ∃ row, refundPayment [⟨"p1", "o1", 2500, "USD", .completed, "credit_card", 0⟩,
        ⟨"r1", "o1", -2500, "USD", .refunded, "credit_card", 1⟩]
        "p1" none "r2" false 2 =
      .ok ([⟨"p1", "o1", 2500, "USD", .completed, "credit_card", 0⟩,
            ⟨"r1", "o1", -2500, "USD", .refunded, "credit_card", 1⟩] ++ [row], row) ∧
      row.amount_cents = -2500 :=
  refund_after_full_refund_succeeds
    [⟨"p1", "o1", 2500, "USD", .completed, "credit_card", 0⟩,
     ⟨"r1", "o1", -2500, "USD", .refunded, "credit_card", 1⟩] "p1" "r2" false 2
    ⟨"p1", "o1", 2500, "USD", .completed, "credit_card", 0⟩ (by decide) (by decide)
    ⟨⟨"r1", "o1", -2500, "USD", .refunded, "credit_card", 1⟩, by decide, by decide⟩

/-- C10: explicitly requesting amount_cents = 0 behaves exactly like an
unspecified amount, because the JS default uses the or-operator and 0 is
falsy: the appended row carries the negation of the full original amount,
not 0. -/
theorem refund_amount_zero_defaults_to_full (db : List Payment) (pid rid : String)
    (gw : Bool) (now : Int) (orig : Payment)
    (hfind : getPaymentById db pid = some orig)
    (hstatus : orig.status = PayStatus.completed) :
    refundPayment db pid (some 0) rid gw now = refundPayment db pid none rid gw now ∧
    ∃ row, refundPayment db pid (some 0) rid gw now = .ok (db ++ [row], row) ∧
      row.amount_cents = -orig.amount_cents := by
  constructor
  · simp [refundPayment, hfind, hstatus, refundAmount]
  · refine ⟨_, refundPayment_completed_ok db pid (some 0) rid gw now orig hfind hstatus, ?_⟩
    show -(refundAmount (some 0) orig.amount_cents) = -orig.amount_cents
    simp [refundAmount]

/-- Witness for C10: refunding the COMPLETED 2500 payment with an explicit
amount of 0 appends a row of amount -2500. -/
theorem refund_amount_zero_defaults_to_full_witness :
    refundPayment [⟨"p1", "o1", 2500, "USD", .completed, "credit_card", 0⟩]
        "p1" (some 0) "r1" true 1 =
      refundPayment [⟨"p1", "o1", 2500, "USD", .completed, "credit_card", 0⟩]
        "p1" none "r1" true 1 ∧
    ∃ row, refundPayment [⟨"p1", "o1", 2500, "USD", .completed, "credit_card", 0⟩]
        "p1" (some 0) "r1" true 1 =
      .ok ([⟨"p1", "o1", 2500, "USD", .completed, "credit_card", 0⟩] ++ [row], row) ∧
      row.amount_cents = -2500 :=
  refund_amount_zero_defaults_to_full
    [⟨"p1", "o1", 2500, "USD", .completed, "credit_card", 0⟩] "p1" "r1" true 1
    ⟨"p1", "o1", 2500, "USD", .completed, "credit_card", 0⟩ (by decide) (by decide)

/-- Result of the summary query (db.ts lines 172-198). -/
structure PaymentSummary where
  total_paid : Int
  total_refunded : Int
  net_amount : Int
  payment_count : Nat
  latest_status : Option PayStatus
deriving DecidableEq, Repr

/-- The rows the aggregate part of the summary query ranges over:
`WHERE order_id = $1 AND status IN (COMPLETED, REFUNDED)`
(db.ts line 187). -/
def qualifyingRows (db : List Payment) (oid : String) : List Payment :=
  db.filter (fun p => p.order_id == oid &&
    (p.status == PayStatus.completed || p.status == PayStatus.refunded))

/-- The rows the latest_status subquery ranges over:
`WHERE order_id = $1` with no status condition (db.ts line 185). -/
def orderRows (db : List Payment) (oid : String) : List Payment :=
  db.filter (fun p => p.order_id == oid)

/-- `ORDER BY created_at DESC LIMIT 1`: a row of maximal created_at.  Later
rows win ties, matching the append-only insertion order. -/
def latestRow (l : List Payment) : Option Payment :=
  l.foldl (fun acc p =>
    match acc with
    | none => some p
    | some a => if a.created_at ≤ p.created_at then some p else some a) none

/-- `CASE WHEN amount_cents > 0 THEN amount_cents ELSE 0 END`. -/
def posPart (p : Payment) : Int := if 0 < p.amount_cents then p.amount_cents else 0

/-- `CASE WHEN amount_cents < 0 THEN amount_cents ELSE 0 END`. -/
def negPart (p : Payment) : Int := if p.amount_cents < 0 then p.amount_cents else 0

/-- Embedding of `getPaymentSummaryByOrderId(orderId)` (db.ts lines
172-198): the financial aggregates range over the qualifying rows, while
latest_status comes from a subquery over all rows of the order. -/
def getPaymentSummaryByOrderId (db : List Payment) (oid : String) : PaymentSummary :=
  let q := qualifyingRows db oid
  { total_paid := (q.map posPart).sum
    total_refunded := |(q.map negPart).sum|
    net_amount := (q.map (fun p => p.amount_cents)).sum
    payment_count := q.length
    latest_status := (latestRow (orderRows db oid)).map (fun p => p.status) }

/-- C8 counterexample: for an order whose only payment row is FAILED, the
summary has all-zero totals -- but latest_status is FAILED, not null, even
though the order has no qualifying row.  PENDING and FAILED rows do
contribute to latest_status, contrary to the claim. -/
theorem summary_latest_status_counterexample :
    getPaymentSummaryByOrderId
        [⟨"p1", "o1", 500, "USD", .failed, "credit_card", 0⟩] "o1" =
      ⟨0, 0, 0, 0, some PayStatus.failed⟩ ∧
    qualifyingRows [⟨"p1", "o1", 500, "USD", .failed, "credit_card", 0⟩] "o1" = [] := by
  constructor <;> rfl

theorem negPart_sum_nonpos (l : List Payment) : (l.map negPart).sum ≤ 0 := by
  induction l with
  | nil => simp
  | cons p t ih =>
      rw [List.map_cons, List.sum_cons]
      have : negPart p ≤ 0 := by
        unfold negPart
        by_cases h : p.amount_cents < 0 <;> simp [h] <;> omega
      omega

theorem latestRow_isSome (l : List Payment) (h : l ≠ []) :
    (latestRow l).isSome = true := by
  have key : ∀ (t : List Payment) (p : Payment),
      (t.foldl (fun acc q =>
        match acc with
        | none => some q
        | some a => if a.created_at ≤ q.created_at then some q else some a) (some p)).isSome
        = true := by
    intro t
    induction t with
    | nil => intro p; rfl
    | cons q t ih =>
        intro p
        rw [List.foldl_cons]
        by_cases hc : p.created_at ≤ q.created_at <;> simp only [hc] <;> simp [ih]
  cases l with
  | nil => exact absurd rfl h
  | cons p t => exact key t p

/-- C8 amended: the financial aggregates (total_paid, total_refunded,
net_amount, payment_count) are computed only from the COMPLETED and
REFUNDED rows of the order -- appending a PENDING or FAILED row changes
none of them -- with net_amount = total_paid - total_refunded; for an order
with no rows at all the summary is all zeros with latest_status null.  But
latest_status is the status of the most recent row of the order regardless
of status, so it is non-null whenever the order has any row, qualifying or
not. -/
theorem getPaymentSummaryByOrderId_spec (db : List Payment) (oid : String) (p : Payment) :
    (getPaymentSummaryByOrderId db oid).net_amount =
      (getPaymentSummaryByOrderId db oid).total_paid -
        (getPaymentSummaryByOrderId db oid).total_refunded ∧
    ((p.status = PayStatus.pending ∨ p.status = PayStatus.failed) →
      (getPaymentSummaryByOrderId (db ++ [p]) oid).total_paid =
          (getPaymentSummaryByOrderId db oid).total_paid ∧
      (getPaymentSummaryByOrderId (db ++ [p]) oid).total_refunded =
          (getPaymentSummaryByOrderId db oid).total_refunded ∧
      (getPaymentSummaryByOrderId (db ++ [p]) oid).net_amount =
          (getPaymentSummaryByOrderId db oid).net_amount ∧
      (getPaymentSummaryByOrderId (db ++ [p]) oid).payment_count =
          (getPaymentSummaryByOrderId db oid).payment_count) ∧
    (orderRows db oid = [] →
      getPaymentSummaryByOrderId db oid = ⟨0, 0, 0, 0, none⟩) ∧
    (orderRows db oid ≠ [] →
      (getPaymentSummaryByOrderId db oid).latest_status ≠ none) := by
  refine ⟨?_, ?_, ?_, ?_⟩
  · show (( qualifyingRows db oid).map (fun p => p.amount_cents)).sum =
      ((qualifyingRows db oid).map posPart).sum - |((qualifyingRows db oid).map negPart).sum|
    rw [abs_of_nonpos (negPart_sum_nonpos _)]
    have hsplit : ∀ l : List Payment,
        (l.map (fun p => p.amount_cents)).sum = (l.map posPart).sum + (l.map negPart).sum := by
      intro l
      induction l with
      | nil => simp
      | cons q t ih =>
          simp only [List.map_cons, List.sum_cons, ih]
          have : q.amount_cents = posPart q + negPart q := by
            unfold posPart negPart
            rcases lt_trichotomy q.amount_cents 0 with h | h | h <;> simp [h] <;> omega
          omega
    rw [hsplit]
    ring
  · intro hp
    have hq : qualifyingRows (db ++ [p]) oid = qualifyingRows db oid := by
      unfold qualifyingRows
      rw [List.filter_append]
      have : (p.status == PayStatus.completed || p.status == PayStatus.refunded) = false := by
        rcases hp with h | h <;> rw [h] <;> rfl
      simp [this]
    refine ⟨?_, ?_, ?_, ?_⟩ <;>
      show _ = _ <;> unfold getPaymentSummaryByOrderId <;> rw [hq]
  · intro h
    have hq : qualifyingRows db oid = [] := by
      apply List.filter_eq_nil_iff.mpr
      intro x hx
      have hfalse := List.filter_eq_nil_iff.mp h x hx
      simp only [Bool.and_eq_true, beq_iff_eq] at hfalse ⊢
      exact fun ⟨ha, _⟩ => hfalse (by simpa using ha)
    unfold getPaymentSummaryByOrderId latestRow
    rw [hq, h]
    rfl
  · intro h
    show ((latestRow (orderRows db oid)).map (fun p => p.status)) ≠ none
    have := latestRow_isSome (orderRows db oid) h
    cases hl : latestRow (orderRows db oid) with
    | none => rw [hl] at this; simp at this
    | some a => simp

/-- Witness for C8 amended, on the spec §8 example: order o1 has a
COMPLETED payment of 2500 and a REFUNDED entry of -1000, so the totals are
paid 2500, refunded 1000, net 1500; appending a FAILED row leaves all four
aggregates unchanged; and an order with no rows yields the all-null
summary. -/
theorem getPaymentSummaryByOrderId_spec_witness :
    getPaymentSummaryByOrderId
        [⟨"p1", "o1", 2500, "USD", .completed, "credit_card", 0⟩,
         ⟨"r1", "o1", -1000, "USD", .refunded, "credit_card", 1⟩] "o1" =
      ⟨2500, 1000, 1500, 2, some PayStatus.refunded⟩ ∧
    (getPaymentSummaryByOrderId
        ([⟨"p1", "o1", 2500, "USD", .completed, "credit_card", 0⟩,
          ⟨"r1", "o1", -1000, "USD", .refunded, "credit_card", 1⟩] ++
         [⟨"p2", "o1", 400, "USD", .failed, "credit_card", 2⟩]) "o1").total_paid =
      (getPaymentSummaryByOrderId
        [⟨"p1", "o1", 2500, "USD", .completed, "credit_card", 0⟩,
         ⟨"r1", "o1", -1000, "USD", .refunded, "credit_card", 1⟩] "o1").total_paid ∧
    getPaymentSummaryByOrderId
        [⟨"p1", "o1", 2500, "USD", .completed, "credit_card", 0⟩] "o9" =
      ⟨0, 0, 0, 0, none⟩ := by
  refine ⟨by rfl, ?_, ?_⟩
  · exact ((getPaymentSummaryByOrderId_spec
      [⟨"p1", "o1", 2500, "USD", .completed, "credit_card", 0⟩,
       ⟨"r1", "o1", -1000, "USD", .refunded, "credit_card", 1⟩] "o1"
      ⟨"p2", "o1", 400, "USD", .failed, "credit_card", 2⟩).2.1 (Or.inr rfl)).1
  · exact (getPaymentSummaryByOrderId_spec
      [⟨"p1", "o1", 2500, "USD", .completed, "credit_card", 0⟩] "o9"
      ⟨"p2", "o1", 400, "USD", .failed, "credit_card", 2⟩).2.2.1 (by decide)

/-! ### Concurrency model for reserve calls on a single sku

Concurrent reserve transactions interact on one inventory row through the
database primitives the code issues, embedded as atomic steps on a shared
state.  The SELECT of the availability check (db.ts lines 88-91) reads the
current value under READ COMMITTED; if the check fails the transaction
throws and rolls back.  The debiting UPDATE (db.ts lines 103-106) is an
atomic read-modify-write under the row lock, re-evaluated against the
latest committed row, and is accepted only when the schema constraint
CHECK (available_quantity >= 0) holds for the result; a violation aborts
the whole transaction.  COMMIT publishes the debit; a transaction that
already debited the row may still roll back because a later item of its
batch threw, which restores the quantity.  Any interleaving of these steps
across transactions is allowed. -/

/-- Where one reserve transaction stands with respect to the observed sku. -/
inductive TxnPhase
  | ready
  | checked (seen : Int)
  | debited
  | committed
  | aborted
deriving DecidableEq, Repr

/-- One reserve transaction: the quantity it requests for the sku and its
current phase. -/
structure Txn where
  qty : Int
  phase : TxnPhase
deriving DecidableEq, Repr

/-- The shared state: the committed-or-locked available quantity of the
inventory row, and all transactions. -/
structure ConcState where
  avail : Int
  txns : List Txn
deriving DecidableEq, Repr

/-- One atomic database step of some transaction. -/
inductive ConcStep : ConcState → ConcState → Prop
  | checkPass (s : ConcState) (i : Nat) (t : Txn)
      (hget : s.txns.get? i = some t) (hp : t.phase = .ready)
      (hok : t.qty ≤ s.avail) :
      ConcStep s ⟨s.avail, s.txns.set i { t with phase := .checked s.avail }⟩
  | checkFail (s : ConcState) (i : Nat) (t : Txn)
      (hget : s.txns.get? i = some t) (hp : t.phase = .ready)
      (hfail : s.avail < t.qty) :
      ConcStep s ⟨s.avail, s.txns.set i { t with phase := .aborted }⟩
  | debitPass (s : ConcState) (i : Nat) (t : Txn) (a : Int)
      (hget : s.txns.get? i = some t) (hp : t.phase = .checked a)
      (hok : 0 ≤ s.avail - t.qty) :
      ConcStep s ⟨s.avail - t.qty, s.txns.set i { t with phase := .debited }⟩
  | debitFail (s : ConcState) (i : Nat) (t : Txn) (a : Int)
      (hget : s.txns.get? i = some t) (hp : t.phase = .checked a)
      (hfail : s.avail - t.qty < 0) :
      ConcStep s ⟨s.avail, s.txns.set i { t with phase := .aborted }⟩
  | commit (s : ConcState) (i : Nat) (t : Txn)
      (hget : s.txns.get? i = some t) (hp : t.phase = .debited) :
      ConcStep s ⟨s.avail, s.txns.set i { t with phase := .committed }⟩
  | rollback (s : ConcState) (i : Nat) (t : Txn)
      (hget : s.txns.get? i = some t) (hp : t.phase = .debited) :
      ConcStep s ⟨s.avail + t.qty, s.txns.set i { t with phase := .aborted }⟩

/-- Quantity a transaction currently holds against the row: its debit is in
effect when it has debited and not rolled back. -/
def holdContrib (t : Txn) : Int :=
  match t.phase with
  | .debited => t.qty
  | .committed => t.qty
  | _ => 0

/-- Quantity of a transaction that succeeded. -/
def commitContrib (t : Txn) : Int :=
  match t.phase with
  | .committed => t.qty
  | _ => 0

def holdSum (l : List Txn) : Int := (l.map holdContrib).sum

def committedSum (l : List Txn) : Int := (l.map commitContrib).sum

theorem map_sum_set (f : Txn → Int) :
    ∀ (l : List Txn) (i : Nat) (t t' : Txn), l.get? i = some t →
      ((l.set i t').map f).sum = (l.map f).sum + f t' - f t := by
  intro l
  induction l with
  | nil => intro i t t' h; simp at h
  | cons a l ih =>
      intro i t t' h
      cases i with
      | zero =>
          simp only [List.get?_cons_zero, Option.some.injEq] at h
          subst h
          simp only [List.set_cons_zero, List.map_cons, List.sum_cons]
          ring
      | succ n =>
          simp only [List.get?_cons_succ] at h
          simp only [List.set_cons_succ, List.map_cons, List.sum_cons, ih n t t' h]
          ring

/-- The safety invariant: the available quantity plus all in-effect debits
equals the initial stock, availability never goes negative, and quantities
stay nonnegative. -/
def ConcInv (S : Int) (s : ConcState) : Prop :=
  s.avail + holdSum s.txns = S ∧ 0 ≤ s.avail ∧ ∀ t ∈ s.txns, 0 ≤ t.qty

theorem concStep_preserves_inv (S : Int) (s s' : ConcState)
    (hstep : ConcStep s s') (hinv : ConcInv S s) : ConcInv S s' := by
  obtain ⟨hsum, havail, hqty⟩ := hinv
  unfold holdSum at hsum
  have hqty_set : ∀ (i : Nat) (t t' : Txn), s.txns.get? i = some t → t'.qty = t.qty →
      ∀ x ∈ s.txns.set i t', 0 ≤ x.qty := by
    intro i t t' hget hq x hx
    rcases List.mem_or_eq_of_mem_set hx with hx' | rfl
    · exact hqty x hx'
    · rw [hq]; exact hqty t (List.get?_mem hget)
  cases hstep with
  | checkPass i t hget hp hok =>
      refine ⟨?_, havail, hqty_set i t _ hget rfl⟩
      show s.avail + holdSum (s.txns.set i { t with phase := .checked s.avail }) = S
      unfold holdSum
      rw [map_sum_set holdContrib s.txns i t _ hget]
      simp only [holdContrib, hp]
      omega
  | checkFail i t hget hp hfail =>
      refine ⟨?_, havail, hqty_set i t _ hget rfl⟩
      show s.avail + holdSum (s.txns.set i { t with phase := .aborted }) = S
      unfold holdSum
      rw [map_sum_set holdContrib s.txns i t _ hget]
      simp only [holdContrib, hp]
      omega
  | debitPass i t a hget hp hok =>
      refine ⟨?_, by show (0:Int) ≤ s.avail - t.qty; omega, hqty_set i t _ hget rfl⟩
      show s.avail - t.qty + holdSum (s.txns.set i { t with phase := .debited }) = S
      unfold holdSum
      rw [map_sum_set holdContrib s.txns i t _ hget]
      simp only [holdContrib, hp]
      omega
  | debitFail i t a hget hp hfail =>
      refine ⟨?_, havail, hqty_set i t _ hget rfl⟩
      show s.avail + holdSum (s.txns.set i { t with phase := .aborted }) = S
      unfold holdSum
      rw [map_sum_set holdContrib s.txns i t _ hget]
      simp only [holdContrib, hp]
      omega
  | commit i t hget hp =>
      refine ⟨?_, havail, hqty_set i t _ hget rfl⟩
      show s.avail + holdSum (s.txns.set i { t with phase := .committed }) = S
      unfold holdSum
      rw [map_sum_set holdContrib s.txns i t _ hget]
      simp only [holdContrib, hp]
      omega
  | rollback i t hget hp =>
      have ht : 0 ≤ t.qty := hqty t (List.get?_mem hget)
      refine ⟨?_, by show (0:Int) ≤ s.avail + t.qty; omega, hqty_set i t _ hget rfl⟩
      show s.avail + t.qty + holdSum (s.txns.set i { t with phase := .aborted }) = S
      unfold holdSum
      rw [map_sum_set holdContrib s.txns i t _ hget]
      simp only [holdContrib, hp]
      omega

theorem concInv_reachable (S : Int) (s s' : ConcState)
    (hreach : Relation.ReflTransGen ConcStep s s') (hinv : ConcInv S s) :
    ConcInv S s' := by
  induction hreach with
  | refl => exact hinv
  | tail _ hstep ih => exact concStep_preserves_inv S _ _ hstep ih

/-- C2: starting from stock S with any set of pending reserve transactions
with nonnegative quantities, along every interleaving of check, debit,
commit and rollback steps, the total quantity of the transactions that
committed never exceeds S.  The guard that makes this hold against racing
checks is the constrained atomic debit, the embedding of the row-locked
UPDATE under CHECK (available_quantity >= 0). -/
theorem reserve_no_oversell (S : Int) (hS : 0 ≤ S) (txns0 : List Txn)
    (hq : ∀ t ∈ txns0, 0 ≤ t.qty) (hr : ∀ t ∈ txns0, t.phase = TxnPhase.ready)
    (s : ConcState) (hreach : Relation.ReflTransGen ConcStep ⟨S, txns0⟩ s) :
    committedSum s.txns ≤ S := by
  have hinv0 : ConcInv S ⟨S, txns0⟩ := by
    refine ⟨?_, hS, hq⟩
    show S + holdSum txns0 = S
    have : holdSum txns0 = 0 := by
      unfold holdSum
      apply List.sum_eq_zero
      intro x hx
      rcases List.mem_map.mp hx with ⟨t, ht, rfl⟩
      simp [holdContrib, hr t ht]
    omega
  obtain ⟨hsum, havail, hqty⟩ := concInv_reachable S _ s hreach hinv0
  have hmono : committedSum s.txns ≤ holdSum s.txns := by
    unfold committedSum holdSum
    apply List.sum_le_sum
    intro t ht
    have := hqty t ht
    cases hph : t.phase <;> simp [commitContrib, holdContrib, hph] <;> omega
  omega

/-- Witness for C2: stock 1, two transactions each requesting 1.  Both
SELECT checks pass reading availability 1, the first transaction debits and
commits, and the second, although its check already passed, is aborted at
its UPDATE by the non-negativity constraint.  The committed total is 1,
within the stock of 1 as the theorem demands: the interleaving of checks
cannot over-sell. -/
theorem reserve_no_oversell_witness :
    committedSum [⟨1, .committed⟩, ⟨1, .aborted⟩] ≤ 1 ∧
    committedSum [⟨1, .committed⟩, ⟨1, .aborted⟩] = 1 := by
  constructor
  · refine reserve_no_oversell 1 (by decide) [⟨1, .ready⟩, ⟨1, .ready⟩]
      (by decide) (by decide) ⟨0, [⟨1, .committed⟩, ⟨1, .aborted⟩]⟩ ?_
    have h1 : ConcStep ⟨1, [⟨1, .ready⟩, ⟨1, .ready⟩]⟩
        ⟨1, [⟨1, .checked 1⟩, ⟨1, .ready⟩]⟩ :=
      ConcStep.checkPass ⟨1, [⟨1, .ready⟩, ⟨1, .ready⟩]⟩ 0 ⟨1, .ready⟩ rfl rfl (by decide)
    have h2 : ConcStep ⟨1, [⟨1, .checked 1⟩, ⟨1, .ready⟩]⟩
        ⟨1, [⟨1, .checked 1⟩, ⟨1, .checked 1⟩]⟩ :=
      ConcStep.checkPass ⟨1, [⟨1, .checked 1⟩, ⟨1, .ready⟩]⟩ 1 ⟨1, .ready⟩ rfl rfl (by decide)
    have h3 : ConcStep ⟨1, [⟨1, .checked 1⟩, ⟨1, .checked 1⟩]⟩
        ⟨0, [⟨1, .debited⟩, ⟨1, .checked 1⟩]⟩ :=
      ConcStep.debitPass ⟨1, [⟨1, .checked 1⟩, ⟨1, .checked 1⟩]⟩ 0 ⟨1, .checked 1⟩ 1
        rfl rfl (by decide)
    have h4 : ConcStep ⟨0, [⟨1, .debited⟩, ⟨1, .checked 1⟩]⟩
        ⟨0, [⟨1, .committed⟩, ⟨1, .checked 1⟩]⟩ :=
      ConcStep.commit ⟨0, [⟨1, .debited⟩, ⟨1, .checked 1⟩]⟩ 0 ⟨1, .debited⟩ rfl rfl
    have h5 : ConcStep ⟨0, [⟨1, .committed⟩, ⟨1, .checked 1⟩]⟩
        ⟨0, [⟨1, .committed⟩, ⟨1, .aborted⟩]⟩ :=
      ConcStep.debitFail ⟨0, [⟨1, .committed⟩, ⟨1, .checked 1⟩]⟩ 1 ⟨1, .checked 1⟩ 1
        rfl rfl (by decide)
    exact .head h1 (.head h2 (.head h3 (.head h4 (.head h5 .refl))))
  · rfl

end OrderProc
